import Mathlib

/-!
Verification of the seppolang compiler's code-generation core against its
natural-language specification.

The definitions below are a shallow embedding of the Rust sources:
  * `SeppoExpr`, `PrintFormat`       — src/types.rs
  * `CG`, `genAny` (= `gen_expr`), `CG.compile` — src/codegen.rs (`CodeGen`)
  * `extractCFunctions`              — the FFI declaration scan inside the
                                       `SeppoExpr::InlineC` arm of `gen_expr`
  * `parseSeppo`                     — the post-grammar phase of
                                       src/parser.rs::parse_seppo (the pest
                                       grammar itself is an external
                                       collaborator; its output is modelled as
                                       a list of top-level items)
  * `linkObjectFileArgs`, `compileFile` — src/main.rs (`link_object_file`,
                                       `compile_file`), with subprocess
                                       outcomes (foreign `cc -c` and the final
                                       link) as boolean oracles and filesystem
                                       effects recorded as created/removed
                                       path traces.

Machine integers are modelled as `Int` truncated to 64 bits with `wrap64`
exactly where the code truncates (`const_int(n as u64)`, the arithmetic
instructions, `build_int_truncate`).  The LLVM backend is modelled by a small
SSA IR (`Inst`, `Term`, `BasicBlock`, `Mod`) plus a fuelled evaluator
(`runAny`); inkwell builder calls are mirrored one-for-one by `pushInst`,
`setTermAt`, `appendBlock`, `addIncoming`.  Nondeterministic `HashMap`
iteration order in the Rust code is determinised to list order; the
per-compilation-unique scratch directory name (pid + nanosecond timestamp) is
determinised to a per-run counter.  The LLVM module verifier invoked by
`CodeGen::compile` is not modelled.
-/

namespace Seppolang

/-- AST node, mirroring `SeppoExpr` in src/types.rs. -/
inductive SeppoExpr where
  | number (n : Int)
  | string (s : String)
  | var (name : String)
  | operation (op : String) (l r : SeppoExpr)
  | assignment (name : String) (value : SeppoExpr)
  | print (fmt : Bool) (e : SeppoExpr)  -- `fmt = true` models `PrintFormat::Hex`
  | block (es : List SeppoExpr)
  | function (name : String) (params : List String) (body : SeppoExpr)
  | functionCall (name : String) (args : List SeppoExpr)
  | ret (value : SeppoExpr)
  | inlineC (code : String)
  | conditional (cond : SeppoExpr) (tb : SeppoExpr) (fb : Option SeppoExpr)

/-- 64-bit two's-complement truncation: the value an LLVM i64 holds. -/
def wrap64 (n : Int) : Int :=
  (n + 9223372036854775808) % 18446744073709551616 - 9223372036854775808

/-- 32-bit two's-complement truncation (for `build_int_truncate` to i32). -/
def wrap32 (n : Int) : Int :=
  (n + 2147483648) % 4294967296 - 2147483648

/-- `n` is representable as an i64. -/
def InI64 (n : Int) : Prop :=
  -9223372036854775808 ≤ n ∧ n < 9223372036854775808

theorem wrap64_eq_of_inI64 {n : Int} (h : InI64 n) : wrap64 n = n := by
  obtain ⟨h1, h2⟩ := h
  unfold wrap64
  omega

/-- LLVM value types appearing in the generated module. -/
inductive Ty where
  | i64 | i32 | i1 | ptr
deriving DecidableEq, Repr

/-- An SSA value: an i64 constant (`const_int`), the result register of an
emitted instruction, or the i-th parameter of the enclosing IR function. -/
inductive Val where
  | const (n : Int)
  | reg (r : Nat)
  | arg (i : Nat)
deriving DecidableEq, Repr

/-- Integer comparison predicates used by `gen_expr`'s `Operation` arm. -/
inductive Pred where
  | sgt | slt | sge | sle | eq | ne
deriving DecidableEq, Repr

/-- Arithmetic opcodes used by `gen_expr`'s `Operation` arm. -/
inductive BinOp where
  | add | sub | mul | sdiv
deriving DecidableEq, Repr

/-- A non-terminator instruction of the modelled IR.  Pointers produced by
`build_alloca` are modelled as slot numbers; `load`/`store` address slots. -/
inductive Inst where
  | alloca (slot : Nat) (name : String)
  | load (dest : Nat) (slot : Nat) (name : String)
  | store (slot : Nat) (v : Val)
  | bin (dest : Nat) (op : BinOp) (a b : Val)
  | icmp (dest : Nat) (p : Pred) (a b : Val)
  | zext (dest : Nat) (v : Val)
  | call (dest : Nat) (callee : String) (args : List Val)
  | phi (dest : Nat) (name : String) (incoming : List (Val × Nat))
  | globalStr (dest : Nat) (s : String)
  | ptrToInt (dest : Nat) (v : Val)
  | trunc (dest : Nat) (v : Val)
deriving DecidableEq, Repr

/-- A basic-block terminator. -/
inductive Term where
  | ret (v : Val)
  | br (b : Nat)
  | condbr (c : Val) (t e : Nat)
deriving DecidableEq, Repr

/-- A basic block, tagged with the id of the IR function owning it. -/
structure BasicBlock where
  fn : Nat
  name : String
  insts : List Inst
  term : Option Term
deriving DecidableEq, Repr

/-- An IR function (signature only; its blocks live in the module arena). -/
structure IRFunc where
  name : String
  params : List Ty
  retTy : Ty
  variadic : Bool
  external : Bool
deriving DecidableEq, Repr

/-- The IR module: functions, and a global arena of basic blocks whose indices
serve as block ids. -/
structure Mod where
  funcs : List IRFunc
  blocks : List BasicBlock
deriving DecidableEq, Repr

/-- Association-list lookup (models `HashMap::get`). -/
def alook {α β : Type} [BEq α] (l : List (α × β)) (k : α) : Option β :=
  (l.find? (fun p => p.1 == k)).map (fun p => p.2)

/-- Association-list insert-or-replace (models `HashMap::insert`). -/
def upsert {α β : Type} [BEq α] : List (α × β) → α → β → List (α × β)
  | [], k, v => [(k, v)]
  | (k1, v1) :: rest, k, v =>
    if k1 == k then (k, v) :: rest else (k1, v1) :: upsert rest k v

/-- Replace the i-th element of a list using `f`. -/
def modifyAt {α : Type} : List α → Nat → (α → α) → List α
  | [], _, _ => []
  | a :: rest, 0, f => f a :: rest
  | a :: rest, n + 1, f => a :: modifyAt rest n f

/-- Ambient compiler state, mirroring the fields of `CodeGen` plus the
builder's insert position and fresh-id counters, plus the filesystem-effect
trace of the `InlineC` arm. -/
structure CG where
  mod : Mod
  vars : List (String × Nat)
  functions : List (String × Nat)
  currentFunction : Option Nat
  cObjectFiles : List String
  curBlock : Option Nat
  nextReg : Nat
  nextSlot : Nat
  nextTemp : Nat
  created : List String
  removed : List String
deriving DecidableEq, Repr

/-- The `printf` declaration added by `CodeGen::new`: variadic, one pointer
parameter, i32 return. -/
def printfDecl : IRFunc :=
  { name := "printf", params := [Ty.ptr], retTy := Ty.i32,
    variadic := true, external := true }

/-- `CodeGen::new`: fresh module holding only the `printf` declaration. -/
def initCG : CG where
  mod := { funcs := [printfDecl], blocks := [] }
  vars := []
  functions := []
  currentFunction := none
  cObjectFiles := []
  curBlock := none
  nextReg := 0
  nextSlot := 0
  nextTemp := 0
  created := []
  removed := []

/-- `Module::add_function`. -/
def addFunc (s : CG) (f : IRFunc) : CG :=
  { s with mod := { s.mod with funcs := s.mod.funcs ++ [f] } }

/-- `Context::append_basic_block`: returns the new block's id. -/
def appendBlock (s : CG) (fid : Nat) (nm : String) : Nat × CG :=
  (s.mod.blocks.length,
   { s with mod := { s.mod with
       blocks := s.mod.blocks ++ [{ fn := fid, name := nm, insts := [], term := none }] } })

/-- Emit an instruction at the builder's current position.  With no position
set the Rust builder would panic; no compilation path exercised here does
that, and the model leaves the state unchanged. -/
def pushInst (s : CG) (i : Inst) : CG :=
  match s.curBlock with
  | none => s
  | some b =>
    { s with mod := { s.mod with
        blocks := modifyAt s.mod.blocks b (fun blk => { blk with insts := blk.insts ++ [i] }) } }

/-- Install a terminator on block `b` (if it has none yet). -/
def setTermAt (s : CG) (b : Nat) (t : Term) : CG :=
  { s with mod := { s.mod with
      blocks := modifyAt s.mod.blocks b
        (fun blk => match blk.term with
                    | none => { blk with term := some t }
                    | some _ => blk) } }

/-- Install a terminator at the builder's current position. -/
def buildTerm (s : CG) (t : Term) : CG :=
  match s.curBlock with
  | none => s
  | some b => setTermAt s b t

/-- `BasicBlock::get_terminator().is_some()` negated. -/
def termIsNone (s : CG) (b : Nat) : Bool :=
  match (s.mod.blocks.get? b).bind (fun blk => blk.term) with
  | none => true
  | some _ => false

/-- `get_terminator().unwrap().get_opcode() == InstructionOpcode::Return`. -/
def termIsRet (s : CG) (b : Nat) : Bool :=
  match (s.mod.blocks.get? b).bind (fun blk => blk.term) with
  | some (Term.ret _) => true
  | _ => false

/-- Allocate a fresh SSA register id. -/
def freshReg (s : CG) : Nat × CG :=
  (s.nextReg, { s with nextReg := s.nextReg + 1 })

/-- Allocate a fresh stack slot (the result of `build_alloca`). -/
def freshSlot (s : CG) : Nat × CG :=
  (s.nextSlot, { s with nextSlot := s.nextSlot + 1 })

/-- `PhiValue::add_incoming`: append incoming edges to the phi whose result
register is `r`, wherever it sits in the module. -/
def addIncoming (s : CG) (r : Nat) (inc : List (Val × Nat)) : CG :=
  { s with mod := { s.mod with
      blocks := s.mod.blocks.map (fun blk =>
        { blk with insts := blk.insts.map (fun i =>
            match i with
            | Inst.phi d nm old => if d == r then Inst.phi d nm (old ++ inc) else i
            | _ => i) }) } }

/-- `Module::get_function`: index of the first function with the given name. -/
def getFunction (m : Mod) (name : String) : Option Nat :=
  m.funcs.findIdx? (fun f => f.name == name)

/-- Compilation errors.  Each constructor corresponds to one `anyhow!` message
in the sources (the message text is given in quotes). -/
inductive CErr where
  | outOfFuel                          -- artefact of the fuelled model only
  | internal                           -- unreachable plumbing case
  | undefinedVariable (name : String)  -- "Undefined variable: {}"
  | undefinedFunction (name : String)  -- "Undefined function: {}"
  | unknownOperator (op : String)      -- "Unknown operator: {}"
  | returnOutsideFunction              -- "Return statement outside of function"
  | conditionalOutsideFunction         -- "Conditional block outside of function"
  | foreignCompilationError            -- "Failed to compile C code: {}"
  | missingEntryPoint                  -- "No seppo function found"
  | linkError                          -- "Linking failed with status: {}"
deriving DecidableEq, Repr

/-! ## The FFI declaration scan (`SeppoExpr::InlineC` arm, codegen.rs:370-412) -/

/-- `str::find(c)` on a character list. -/
def charFind (cs : List Char) (c : Char) : Option Nat :=
  cs.findIdx? (fun x => x == c)

/-- `str::rfind(char::is_whitespace)`. -/
def rfindWs (cs : List Char) : Option Nat :=
  (cs.reverse.findIdx? (fun x => x.isWhitespace)).map (fun i => cs.length - 1 - i)

/-- `str::trim`. -/
def trimChars (cs : List Char) : List Char :=
  ((cs.dropWhile Char.isWhitespace).reverse.dropWhile Char.isWhitespace).reverse

/-- One pass of the `while let Some(paren_pos) = code[pos..].find('(')` loop:
for each `(`, take the whitespace-delimited token before it as a function
name and count the commas inside the parenthesis group as the arity. -/
def extractLoop (code : List Char) : Nat → Nat → List (String × Nat)
  | 0, _ => []
  | fuel + 1, pos =>
    match charFind (code.drop pos) '(' with
    | none => []
    | some p =>
      let start := pos + p
      let beforeParen := code.take start
      let entry :=
        match rfindWs beforeParen with
        | none => []
        | some nameStart =>
          let funcName := trimChars (beforeParen.drop (nameStart + 1))
          match charFind (code.drop start) ')' with
          | none => []
          | some paramsEnd =>
            let params := trimChars ((code.drop (start + 1)).take (paramsEnd - 1))
            let n := if params.isEmpty then 0 else params.count ',' + 1
            [(String.mk funcName, n)]
      entry ++ extractLoop code fuel (start + 1)

/-- The (name, arity) pairs the `InlineC` arm discovers in a foreign block. -/
def extractCFunctions (code : String) : List (String × Nat) :=
  let cs := trimChars code.toList
  extractLoop cs (cs.length + 2) 0

/-- The IR function record registered for a discovered foreign declaration
of arity `n`: `n` i64 parameters, i64 return, external linkage. -/
def ffiSig (d : String × Nat) : IRFunc :=
  { name := d.1, params := List.replicate d.2 Ty.i64, retTy := Ty.i64,
    variadic := false, external := true }

/-- Register one discovered foreign function: `module.add_function` with the
all-i64 signature, then `functions.insert`. -/
def registerOne (acc : CG) (d : String × Nat) : CG :=
  let fid := acc.mod.funcs.length
  let acc1 := addFunc acc (ffiSig d)
  { acc1 with functions := upsert acc1.functions d.1 fid }

/-- Register every discovered foreign function, in discovery order. -/
def registerForeign (s : CG) (decls : List (String × Nat)) : CG :=
  decls.foldl registerOne s

/-! ## `gen_expr` (codegen.rs:85-583) -/

/-- Work items for the single fuelled recursion implementing `gen_expr`:
one expression, a statement sequence (the `Block` arm's loop, with its
running `last_value`), or an argument list (the `FunctionCall` arm's map). -/
inductive GenTask where
  | one (e : SeppoExpr)
  | seq (es : List SeppoExpr) (last : Val)
  | args (es : List SeppoExpr) (acc : List Val)

/-- Result of a `GenTask`. -/
inductive GenRes where
  | val (v : Val)
  | vals (vs : List Val)
deriving DecidableEq, Repr

/-- Sequence a generation step expected to produce a single value. -/
def bindVal (r : CG × Except CErr GenRes)
    (k : CG → Val → CG × Except CErr GenRes) : CG × Except CErr GenRes :=
  match r with
  | (s, Except.ok (GenRes.val v)) => k s v
  | (s, Except.ok (GenRes.vals _)) => (s, Except.error CErr.internal)
  | (s, Except.error e) => (s, Except.error e)

/-- Sequence a generation step expected to produce an argument list. -/
def bindVals (r : CG × Except CErr GenRes)
    (k : CG → List Val → CG × Except CErr GenRes) : CG × Except CErr GenRes :=
  match r with
  | (s, Except.ok (GenRes.vals vs)) => k s vs
  | (s, Except.ok (GenRes.val _)) => (s, Except.error CErr.internal)
  | (s, Except.error e) => (s, Except.error e)

/-- The merge-block loop over `all_vars` (codegen.rs:501-548): one phi per
changed name, one incoming edge per branch that has the name bound and whose
tail block does not end in `return` (the incoming value being a load emitted
in the merge block), and a store back into the entry slot when the name had
one.  Returns the state plus `merged_vars`. -/
def mergeVarPhis (thenVars elseVars entryVars : List (String × Nat))
    (thenBlock elseBlock : Nat) :
    List String → CG → CG × List (String × Nat)
  | [], s => (s, [])
  | nm :: rest, s =>
    let pr := freshReg s
    let s2 := pushInst pr.2 (Inst.phi pr.1 (nm ++ "_phi") [])
    let step1 : CG × List (Val × Nat) :=
      match alook thenVars nm with
      | some tslot =>
        if termIsRet s2 thenBlock then (s2, [])
        else
          let lr := freshReg s2
          (pushInst lr.2 (Inst.load lr.1 tslot (nm ++ "_then")), [(Val.reg lr.1, thenBlock)])
      | none => (s2, [])
    let step2 : CG × List (Val × Nat) :=
      match alook elseVars nm with
      | some eslot =>
        if termIsRet step1.1 elseBlock then step1
        else
          let lr := freshReg step1.1
          (pushInst lr.2 (Inst.load lr.1 eslot (nm ++ "_else")),
           step1.2 ++ [(Val.reg lr.1, elseBlock)])
      | none => step1
    if step2.2.isEmpty then
      mergeVarPhis thenVars elseVars entryVars thenBlock elseBlock rest step2.1
    else
      let s3 := addIncoming step2.1 pr.1 step2.2
      let step3 : CG × List (String × Nat) :=
        match alook entryVars nm with
        | some v => (pushInst s3 (Inst.store v (Val.reg pr.1)), [(nm, v)])
        | none => (s3, [])
      let tail := mergeVarPhis thenVars elseVars entryVars thenBlock elseBlock rest step3.1
      (tail.1, step3.2 ++ tail.2)

/-- `gen_expr`, fuelled.  `cc` is the outcome oracle for the external `cc -c`
invocation of the `InlineC` arm.  Every recursive descent consumes one unit
of fuel; running out yields `CErr.outOfFuel` (never reached with the fuel
used below). -/
def genAny (cc : Bool) : Nat → GenTask → CG → CG × Except CErr GenRes
  | 0, _, s => (s, Except.error CErr.outOfFuel)
  | fuel + 1, t, s =>
    match t with
    | GenTask.seq [] last => (s, Except.ok (GenRes.val last))
    | GenTask.seq (e :: rest) _ =>
      bindVal (genAny cc fuel (GenTask.one e) s) (fun s1 v =>
        match e with
        | SeppoExpr.ret _ => (s1, Except.ok (GenRes.val v))
        | _ => genAny cc fuel (GenTask.seq rest v) s1)
    | GenTask.args [] acc => (s, Except.ok (GenRes.vals acc))
    | GenTask.args (e :: rest) acc =>
      bindVal (genAny cc fuel (GenTask.one e) s) (fun s1 v =>
        genAny cc fuel (GenTask.args rest (acc ++ [v])) s1)
    | GenTask.one e =>
      match e with
      | SeppoExpr.number n => (s, Except.ok (GenRes.val (Val.const (wrap64 n))))
      | SeppoExpr.var name =>
        match alook s.vars name with
        | some slot =>
          let r := freshReg s
          (pushInst r.2 (Inst.load r.1 slot name), Except.ok (GenRes.val (Val.reg r.1)))
        | none => (s, Except.error (CErr.undefinedVariable name))
      | SeppoExpr.function name params body =>
        let fid := s.mod.funcs.length
        let s1 := addFunc s { name := name, params := List.replicate params.length Ty.i64,
                              retTy := Ty.i64, variadic := false, external := false }
        let s2 := { s1 with functions := upsert s1.functions name fid }
        let eb := appendBlock s2 fid "entry"
        let s3 := { eb.2 with curBlock := some eb.1 }
        let prevFunction := s3.currentFunction
        let s4 := { s3 with currentFunction := some fid }
        let prevVars := s4.vars
        let s5 := { s4 with vars := [] }
        let s6 := (params.enum).foldl (fun acc ip =>
          let sl := freshSlot acc
          let a2 := pushInst sl.2 (Inst.alloca sl.1 ip.2)
          let a3 := pushInst a2 (Inst.store sl.1 (Val.arg ip.1))
          { a3 with vars := upsert a3.vars ip.2 sl.1 }) s5
        bindVal (genAny cc fuel (GenTask.one body) s6) (fun s7 _ =>
          let s8 :=
            match s7.curBlock with
            | some b => if termIsNone s7 b then setTermAt s7 b (Term.ret (Val.const 0)) else s7
            | none => s7
          let s9 := { s8 with vars := prevVars, currentFunction := prevFunction }
          (s9, Except.ok (GenRes.val (Val.const 0))))
      | SeppoExpr.functionCall name args =>
        match alook s.functions name with
        | none => (s, Except.error (CErr.undefinedFunction name))
        | some _ =>
          bindVals (genAny cc fuel (GenTask.args args []) s) (fun s1 vs =>
            let r := freshReg s1
            (pushInst r.2 (Inst.call r.1 name vs), Except.ok (GenRes.val (Val.reg r.1))))
      | SeppoExpr.ret value =>
        bindVal (genAny cc fuel (GenTask.one value) s) (fun s1 v =>
          match s1.currentFunction with
          | some _ => (buildTerm s1 (Term.ret v), Except.ok (GenRes.val v))
          | none => (s1, Except.error CErr.returnOutsideFunction))
      | SeppoExpr.operation op l r =>
        bindVal (genAny cc fuel (GenTask.one l) s) (fun s1 lhs =>
          bindVal (genAny cc fuel (GenTask.one r) s1) (fun s2 rhs =>
            let arith (o : BinOp) : CG × Except CErr GenRes :=
              let d := freshReg s2
              (pushInst d.2 (Inst.bin d.1 o lhs rhs), Except.ok (GenRes.val (Val.reg d.1)))
            let cmp (p : Pred) : CG × Except CErr GenRes :=
              let c := freshReg s2
              let s3 := pushInst c.2 (Inst.icmp c.1 p lhs rhs)
              let z := freshReg s3
              (pushInst z.2 (Inst.zext z.1 (Val.reg c.1)), Except.ok (GenRes.val (Val.reg z.1)))
            if op = "+" then arith BinOp.add
            else if op = "-" then arith BinOp.sub
            else if op = "*" then arith BinOp.mul
            else if op = "/" then arith BinOp.sdiv
            else if op = ">" then cmp Pred.sgt
            else if op = "<" then cmp Pred.slt
            else if op = ">=" then cmp Pred.sge
            else if op = "<=" then cmp Pred.sle
            else if op = "==" then cmp Pred.eq
            else if op = "!=" then cmp Pred.ne
            else (s2, Except.error (CErr.unknownOperator op))))
      | SeppoExpr.assignment name value =>
        bindVal (genAny cc fuel (GenTask.one value) s) (fun s1 v =>
          match alook s1.vars name with
          | some slot => (pushInst s1 (Inst.store slot v), Except.ok (GenRes.val v))
          | none =>
            let sl := freshSlot s1
            let s2 := pushInst sl.2 (Inst.alloca sl.1 name)
            let s3 := { s2 with vars := upsert s2.vars name sl.1 }
            (pushInst s3 (Inst.store sl.1 v), Except.ok (GenRes.val v)))
      | SeppoExpr.print fmt pe =>
        bindVal (genAny cc fuel (GenTask.one pe) s) (fun s1 v =>
          let fmtStr := if fmt then "0x%lx\n" else "%ld\n"
          let g := freshReg s1
          let s2 := pushInst g.2 (Inst.globalStr g.1 fmtStr)
          let c := freshReg s2
          (pushInst c.2 (Inst.call c.1 "printf" [Val.reg g.1, v]),
           Except.ok (GenRes.val v)))
      | SeppoExpr.block es => genAny cc fuel (GenTask.seq es (Val.const 0)) s
      | SeppoExpr.inlineC code =>
        let dir := "/tmp/seppolang_extern_" ++ toString s.nextTemp
        let cFile := dir ++ "/inline.c"
        let oFile := dir ++ "/inline.o"
        let s1 := { s with nextTemp := s.nextTemp + 1,
                           created := s.created ++ [dir, cFile] }
        if cc then
          let s2 := { s1 with created := s1.created ++ [oFile],
                              removed := s1.removed ++ [cFile],
                              cObjectFiles := s1.cObjectFiles ++ [oFile] }
          (registerForeign s2 (extractCFunctions code), Except.ok (GenRes.val (Val.const 0)))
        else (s1, Except.error CErr.foreignCompilationError)
      | SeppoExpr.string str =>
        let g := freshReg s
        let s1 := pushInst g.2 (Inst.globalStr g.1 str)
        let p := freshReg s1
        (pushInst p.2 (Inst.ptrToInt p.1 (Val.reg g.1)), Except.ok (GenRes.val (Val.reg p.1)))
      | SeppoExpr.conditional cond tb fb =>
        match s.currentFunction with
        | none => (s, Except.error CErr.conditionalOutsideFunction)
        | some fid =>
          bindVal (genAny cc fuel (GenTask.one cond) s) (fun s1 cv =>
            let c1 := freshReg s1
            let s2 := pushInst c1.2 (Inst.icmp c1.1 Pred.ne cv (Val.const 0))
            let tB := appendBlock s2 fid "then"
            let eB := appendBlock tB.2 fid "else"
            let mB := appendBlock eB.2 fid "merge"
            let s3 := buildTerm mB.2 (Term.condbr (Val.reg c1.1) tB.1 eB.1)
            let entryVars := s3.vars
            let s4 := { s3 with curBlock := some tB.1 }
            bindVal (genAny cc fuel (GenTask.one tb) s4) (fun s5 thenVal =>
              let thenBlock := s5.curBlock.getD tB.1
              let thenVars := s5.vars
              let s6 := if termIsNone s5 thenBlock then setTermAt s5 thenBlock (Term.br mB.1) else s5
              let s7 := { s6 with vars := entryVars, curBlock := some eB.1 }
              bindVal (match fb with
                       | some f => genAny cc fuel (GenTask.one f) s7
                       | none => (s7, Except.ok (GenRes.val (Val.const 0)))) (fun s8 elseVal =>
                let elseBlock := s8.curBlock.getD eB.1
                let elseVars := s8.vars
                let s9 := if termIsNone s8 elseBlock then setTermAt s8 elseBlock (Term.br mB.1) else s8
                let s10 := { s9 with curBlock := some mB.1 }
                let allVars := ((thenVars.map Prod.fst) ++ (elseVars.map Prod.fst)).dedup.filter
                    (fun k => !(alook thenVars k == alook entryVars k)
                              || !(alook elseVars k == alook entryVars k))
                let mv := mergeVarPhis thenVars elseVars entryVars thenBlock elseBlock allVars s10
                let s11 := { mv.1 with
                  vars := mv.2.foldl (fun acc p => upsert acc p.1 p.2) entryVars }
                let pr := freshReg s11
                let s12 := pushInst pr.2 (Inst.phi pr.1 "merge_val" [])
                let inc := (if termIsRet s12 thenBlock then [] else [(thenVal, thenBlock)])
                        ++ (if termIsRet s12 elseBlock then [] else [(elseVal, elseBlock)])
                if inc.isEmpty then (s12, Except.ok (GenRes.val (Val.const 0)))
                else (addIncoming s12 pr.1 inc, Except.ok (GenRes.val (Val.reg pr.1))))))

/-- `gen_expr` specialised to a single expression. -/
def genExpr (cc : Bool) (fuel : Nat) (e : SeppoExpr) (s : CG) : CG × Except CErr Val :=
  match genAny cc fuel (GenTask.one e) s with
  | (s1, Except.ok (GenRes.val v)) => (s1, Except.ok v)
  | (s1, Except.ok (GenRes.vals _)) => (s1, Except.error CErr.internal)
  | (s1, Except.error e1) => (s1, Except.error e1)

/-- Generous fuel: deeper than any program considered here. -/
def bigFuel : Nat := 64

/-- `CodeGen::compile`: generate code for the program, then create `main`,
which calls `seppo`, truncates its i64 result to i32, and returns it; error
("No seppo function found") when the module has no `seppo` function. -/
def CG.compile (cc : Bool) (e : SeppoExpr) : CG × Except CErr Unit :=
  match genAny cc bigFuel (GenTask.one e) initCG with
  | (s1, Except.error e1) => (s1, Except.error e1)
  | (s1, Except.ok _) =>
    let mid := s1.mod.funcs.length
    let s2 := addFunc s1 { name := "main", params := [], retTy := Ty.i32,
                           variadic := false, external := false }
    let eb := appendBlock s2 mid "entry"
    let s3 := { eb.2 with curBlock := some eb.1 }
    match getFunction s3.mod "seppo" with
    | some _ =>
      let r := freshReg s3
      let s4 := pushInst r.2 (Inst.call r.1 "seppo" [])
      let t := freshReg s4
      let s5 := pushInst t.2 (Inst.trunc t.1 (Val.reg r.1))
      (buildTerm s5 (Term.ret (Val.reg t.1)), Except.ok ())
    | none => (s3, Except.error CErr.missingEntryPoint)

/-! ## Evaluation of the generated IR

A fuelled small-step executor for the modelled SSA IR, used to state runtime
properties of compiled programs.  Each call gets a fresh frame (registers and
alloca slots); `printf` appends its evaluated arguments to the output trace;
calls to external (foreign) functions have no body and get stuck. -/

/-- A call frame: the invocation's arguments, register file, and the values
stored in the frame's alloca slots. -/
structure Frame where
  args : List Int
  regs : List (Nat × Int)
  mem : List (Nat × Int)
deriving DecidableEq, Repr

/-- Value of a `Val` in a frame (registers default to 0, as do arguments out
of range — neither default is reachable for code emitted by `genAny`). -/
def evalVal (fr : Frame) : Val → Int
  | Val.const n => n
  | Val.reg r => (alook fr.regs r).getD 0
  | Val.arg i => fr.args.getD i 0

def setReg (fr : Frame) (r : Nat) (v : Int) : Frame :=
  { fr with regs := upsert fr.regs r v }

def setMem (fr : Frame) (slot : Nat) (v : Int) : Frame :=
  { fr with mem := upsert fr.mem slot v }

/-- Semantics of one arithmetic instruction (i64, wrapping; `sdiv` truncates
toward zero — division by zero is undefined behaviour in the source and is
given the value 0 here, a case no theorem below relies on). -/
def evalBin : BinOp → Int → Int → Int
  | BinOp.add, a, b => wrap64 (a + b)
  | BinOp.sub, a, b => wrap64 (a - b)
  | BinOp.mul, a, b => wrap64 (a * b)
  | BinOp.sdiv, a, b => wrap64 (Int.tdiv a b)

/-- Semantics of an integer comparison (operands are signed i64 values). -/
def evalPred : Pred → Int → Int → Int
  | Pred.sgt, a, b => if a > b then 1 else 0
  | Pred.slt, a, b => if a < b then 1 else 0
  | Pred.sge, a, b => if a ≥ b then 1 else 0
  | Pred.sle, a, b => if a ≤ b then 1 else 0
  | Pred.eq, a, b => if a = b then 1 else 0
  | Pred.ne, a, b => if a = b then 0 else 1

/-- Effect of one non-call instruction on the frame.  `prev` is the
predecessor block, consulted by `phi`. -/
def stepInst (fr : Frame) (prev : Option Nat) : Inst → Frame
  | Inst.alloca _ _ => fr
  | Inst.load dest slot _ => setReg fr dest ((alook fr.mem slot).getD 0)
  | Inst.store slot v => setMem fr slot (evalVal fr v)
  | Inst.bin dest op a b => setReg fr dest (evalBin op (evalVal fr a) (evalVal fr b))
  | Inst.icmp dest p a b => setReg fr dest (evalPred p (evalVal fr a) (evalVal fr b))
  | Inst.zext dest v => setReg fr dest (evalVal fr v)
  | Inst.call dest _ _ => setReg fr dest 0  -- calls are handled in `runAny`
  | Inst.phi dest _ incoming =>
    setReg fr dest
      (match prev with
       | some p =>
         match incoming.find? (fun e => e.2 == p) with
         | some e => evalVal fr e.1
         | none => 0
       | none => 0)
  | Inst.globalStr dest _ => setReg fr dest 0
  | Inst.ptrToInt dest v => setReg fr dest (evalVal fr v)
  | Inst.trunc dest v => setReg fr dest (wrap32 (evalVal fr v))

/-- Id of the first basic block belonging to function `fid` (its entry). -/
def entryBlockOf (m : Mod) (fid : Nat) : Option Nat :=
  m.blocks.findIdx? (fun blk => blk.fn == fid)

/-- Work items of the fuelled executor. -/
inductive ETask where
  | callF (fname : String) (argv : List Int)
  | blockT (bid : Nat) (prev : Option Nat) (fr : Frame)
  | instsT (is : List Inst) (bid : Nat) (prev : Option Nat) (fr : Frame)
deriving Repr

/-- Result of an executor work item. -/
inductive ERes where
  | value (n : Int)
  | frame (fr : Frame)
deriving DecidableEq, Repr

/-- The executor.  Returns `none` when stuck (missing function or block,
call into a bodyless external function, unterminated block) or out of fuel. -/
def runAny (m : Mod) : Nat → ETask → List Int → Option (ERes × List Int)
  | 0, _, _ => none
  | fuel + 1, t, out =>
    match t with
    | ETask.callF name argv =>
      match getFunction m name with
      | none => none
      | some fid =>
        match entryBlockOf m fid with
        | none => none
        | some b => runAny m fuel (ETask.blockT b none { args := argv, regs := [], mem := [] }) out
    | ETask.blockT b prev fr =>
      match m.blocks.get? b with
      | none => none
      | some blk =>
        match runAny m fuel (ETask.instsT blk.insts b prev fr) out with
        | some (ERes.frame fr2, out2) =>
          match blk.term with
          | some (Term.ret v) => some (ERes.value (evalVal fr2 v), out2)
          | some (Term.br b2) => runAny m fuel (ETask.blockT b2 (some b) fr2) out2
          | some (Term.condbr c bt be) =>
            if evalVal fr2 c ≠ 0 then runAny m fuel (ETask.blockT bt (some b) fr2) out2
            else runAny m fuel (ETask.blockT be (some b) fr2) out2
          | none => none
        | _ => none
    | ETask.instsT [] _ _ fr => some (ERes.frame fr, out)
    | ETask.instsT (i :: rest) b prev fr =>
      match i with
      | Inst.call dest callee argVals =>
        if callee = "printf" then
          runAny m fuel (ETask.instsT rest b prev (setReg fr dest 0))
                 (out ++ argVals.map (evalVal fr))
        else
          match runAny m fuel (ETask.callF callee (argVals.map (evalVal fr))) out with
          | some (ERes.value n, out2) =>
            runAny m fuel (ETask.instsT rest b prev (setReg fr dest n)) out2
          | _ => none
      | _ => runAny m fuel (ETask.instsT rest b prev (stepInst fr prev i)) out

/-- Run the named function on the given arguments: its i64 return value and
the print trace. -/
def runCall (m : Mod) (fuel : Nat) (name : String) (argv : List Int) :
    Option (Int × List Int) :=
  match runAny m fuel (ETask.callF name argv) [] with
  | some (ERes.value n, out) => some (n, out)
  | _ => none

/-- Compile a program with `CodeGen::compile` and, on success, run its
`seppo` function directly, yielding the entry function's i64 result. -/
def runSeppo (e : SeppoExpr) : Option Int :=
  match CG.compile true e with
  | (s, Except.ok _) => (runCall s.mod 256 "seppo" []).map (fun r => r.1)
  | _ => none

/-! ## The driver (src/parser.rs `parse_seppo`, src/main.rs) -/

/-- A top-level item as delivered by the external pest grammar:
a parsed function definition (src/parser.rs `parse_function`; the grammar
currently yields no parameters) or an extern (`ceppo`) block's raw C text. -/
inductive TopItem where
  | func (name : String) (body : SeppoExpr)
  | ext (code : String)

/-- Does this item set `has_main` in `parse_seppo`? -/
def TopItem.isSeppoFn : TopItem → Bool
  | TopItem.func name _ => name == "seppo"
  | TopItem.ext _ => false

/-- The AST node an item contributes to the program block. -/
def TopItem.toExpr : TopItem → SeppoExpr
  | TopItem.func name body => SeppoExpr.function name [] body
  | TopItem.ext code => SeppoExpr.inlineC code

/-- The post-grammar phase of `parse_seppo` (src/parser.rs:43-81): collect the
items into a top-level `Block`, failing with "No seppo function found"
(`MissingEntryPoint`) when no function named `seppo` is among them. -/
def parseSeppo (items : List TopItem) : Except CErr SeppoExpr :=
  if items.any TopItem.isSeppoFn then
    Except.ok (SeppoExpr.block (items.map TopItem.toExpr))
  else Except.error CErr.missingEntryPoint

/-- The argv of the linker invocation made by `link_object_file`
(src/main.rs:56-125), on the Linux branch: `cc -v -o <output> <obj_file>`.
Only the primary object file is passed. -/
def linkObjectFileArgs (objFile output : String) : List String :=
  ["cc", "-v", "-o", output, objFile]

deriving instance DecidableEq for Except

/-- Outcome of one `compile_file` run: the driver's result, the linker argv
(if linking was reached), the foreign object files collected by codegen, and
the filesystem trace of files/directories created and removed. -/
structure CompileOutcome where
  result : Except CErr Unit
  linkCmd : Option (List String)
  foreignObjs : List String
  created : List String
  removed : List String
deriving DecidableEq, Repr

/-- `compile_file` (src/main.rs:13-54): parse, generate code, write the
object file, link (`link_object_file`), and on link success delete the
primary object file.  `cc`/`linkOk` are the outcome oracles of the two
subprocesses; `out` is the output path (on Linux the executable path equals
it).  The `.ll` debug dump and the object file are recorded as created. -/
def compileFile (items : List TopItem) (cc linkOk : Bool) (out : String) :
    CompileOutcome :=
  match parseSeppo items with
  | Except.error e =>
    { result := Except.error e, linkCmd := none, foreignObjs := [],
      created := [], removed := [] }
  | Except.ok expr =>
    match CG.compile cc expr with
    | (s, Except.error e) =>
      { result := Except.error e, linkCmd := none, foreignObjs := s.cObjectFiles,
        created := s.created, removed := s.removed }
    | (s, Except.ok _) =>
      let objFile := out ++ ".o"
      let created := s.created ++ [out ++ ".ll", objFile]
      let cmd := linkObjectFileArgs objFile out
      if linkOk then
        { result := Except.ok (), linkCmd := some cmd, foreignObjs := s.cObjectFiles,
          created := created ++ [out], removed := s.removed ++ [objFile] }
      else
        { result := Except.error CErr.linkError, linkCmd := some cmd,
          foreignObjs := s.cObjectFiles, created := created, removed := s.removed }

/-! ## Concrete programs and states used to settle the claims -/

/-- Does an instruction store to a slot? -/
def isStore : Inst → Bool
  | Inst.store _ _ => true
  | _ => false

/-- Is an instruction a phi node? -/
def isPhi : Inst → Bool
  | Inst.phi _ _ _ => true
  | _ => false

/-- The foreign block of spec Scenario D. -/
def addC : String := "long add(long a, long b) { return a + b; }"

/-- A zero-parameter foreign declaration. -/
def snippet0 : String := "int f() { return 1; }"

/-- Two foreign declarations, of arities 2 and 3. -/
def snippet23 : String := "double calc(float x, int y) { return 1; } int g(a,b,c) { return 1; }"

/-- Scenario D as a parsed program: a `ceppo` block defining `add`, and a
`seppo` entry returning `add(40, 2)`. -/
def itemsD : List TopItem :=
  [TopItem.ext addC,
   TopItem.func "seppo"
     (SeppoExpr.block [SeppoExpr.ret (SeppoExpr.functionCall "add"
        [SeppoExpr.number 40, SeppoExpr.number 2])])]

/-- A top-level item list with no `seppo` function. -/
def itemsNoSeppo : List TopItem :=
  [TopItem.func "main" (SeppoExpr.block [SeppoExpr.ret (SeppoExpr.number 42)])]

/-- The C4 program family: `x` and `v` are bound before the Conditional (as
parameters of `seppo`); the true branch — taken iff `b` — assigns `x = v`;
`x` is read after the Conditional. -/
def prog4 (b : Bool) : SeppoExpr :=
  SeppoExpr.block [SeppoExpr.function "seppo" ["x", "v"]
    (SeppoExpr.block
      [SeppoExpr.conditional (SeppoExpr.number (if b then 1 else 0))
         (SeppoExpr.block [SeppoExpr.assignment "x" (SeppoExpr.var "v")])
         (some (SeppoExpr.block [SeppoExpr.number 0])),
       SeppoExpr.ret (SeppoExpr.var "x")])]

/-- The module `CG.compile` produces for `prog4` (checked by `decide` in the
proof of C4), with the condition constant `c` abstracted. -/
def mod4ir (c : Int) : Mod :=
  { funcs := [printfDecl,
              { name := "seppo", params := [Ty.i64, Ty.i64], retTy := Ty.i64,
                variadic := false, external := false },
              { name := "main", params := [], retTy := Ty.i32,
                variadic := false, external := false }],
    blocks := [{ fn := 1, name := "entry",
                 insts := [Inst.alloca 0 "x", Inst.store 0 (Val.arg 0),
                           Inst.alloca 1 "v", Inst.store 1 (Val.arg 1),
                           Inst.icmp 0 Pred.ne (Val.const c) (Val.const 0)],
                 term := some (Term.condbr (Val.reg 0) 1 2) },
               { fn := 1, name := "then",
                 insts := [Inst.load 1 1 "v", Inst.store 0 (Val.reg 1)],
                 term := some (Term.br 3) },
               { fn := 1, name := "else", insts := [], term := some (Term.br 3) },
               { fn := 1, name := "merge",
                 insts := [Inst.phi 2 "merge_val" [(Val.reg 1, 1), (Val.const 0, 2)],
                           Inst.load 3 0 "x"],
                 term := some (Term.ret (Val.reg 3)) },
               { fn := 2, name := "entry",
                 insts := [Inst.call 4 "seppo" [], Inst.trunc 5 (Val.reg 4)],
                 term := some (Term.ret (Val.reg 5)) }] }

/-- `x` assigned before the Conditional and in both branches. -/
def p6a : SeppoExpr :=
  SeppoExpr.block [SeppoExpr.function "seppo" []
    (SeppoExpr.block
      [SeppoExpr.assignment "x" (SeppoExpr.number 1),
       SeppoExpr.conditional (SeppoExpr.number 1)
         (SeppoExpr.block [SeppoExpr.assignment "x" (SeppoExpr.number 2)])
         (some (SeppoExpr.block [SeppoExpr.assignment "x" (SeppoExpr.number 3)])),
       SeppoExpr.ret (SeppoExpr.var "x")])]

/-- The true branch ends in a `return`; the false branch yields 5. -/
def p6b : SeppoExpr :=
  SeppoExpr.block [SeppoExpr.function "seppo" []
    (SeppoExpr.block
      [SeppoExpr.conditional (SeppoExpr.number 0)
         (SeppoExpr.block [SeppoExpr.ret (SeppoExpr.number 7)])
         (some (SeppoExpr.block [SeppoExpr.number 5])),
       SeppoExpr.ret (SeppoExpr.number 9)])]

/-- A Conditional with no false branch. -/
def p6c : SeppoExpr :=
  SeppoExpr.block [SeppoExpr.function "seppo" []
    (SeppoExpr.block
      [SeppoExpr.conditional (SeppoExpr.number 1)
         (SeppoExpr.block [SeppoExpr.number 4]) none,
       SeppoExpr.ret (SeppoExpr.number 9)])]

/-- A compilation state positioned inside a function body (function id 1,
empty entry block), as `gen_expr` sees it mid-descent. -/
def sInFn : CG :=
  { mod := { funcs := [printfDecl,
                       { name := "f", params := [], retTy := Ty.i64,
                         variadic := false, external := false }],
             blocks := [{ fn := 1, name := "entry", insts := [], term := none }] },
    vars := [], functions := [], currentFunction := some 1, cObjectFiles := [],
    curBlock := some 0, nextReg := 0, nextSlot := 0, nextTemp := 0,
    created := [], removed := [] }

/-- A Conditional both of whose branches end in `return`. -/
def condBothRet : SeppoExpr :=
  SeppoExpr.conditional (SeppoExpr.number 1)
    (SeppoExpr.block [SeppoExpr.ret (SeppoExpr.number 1)])
    (some (SeppoExpr.block [SeppoExpr.ret (SeppoExpr.number 2)]))

/-- `y` is first bound inside the true branch; both branches reach merge. -/
def p7 : SeppoExpr :=
  SeppoExpr.block [SeppoExpr.function "seppo" []
    (SeppoExpr.block
      [SeppoExpr.conditional (SeppoExpr.number 1)
         (SeppoExpr.block [SeppoExpr.assignment "y" (SeppoExpr.number 5)])
         (some (SeppoExpr.block [SeppoExpr.number 0])),
       SeppoExpr.ret (SeppoExpr.number 0)])]

/-- `y` is first bound inside both branches (to distinct fresh slots). -/
def p7b : SeppoExpr :=
  SeppoExpr.block [SeppoExpr.function "seppo" []
    (SeppoExpr.block
      [SeppoExpr.conditional (SeppoExpr.number 1)
         (SeppoExpr.block [SeppoExpr.assignment "y" (SeppoExpr.number 5)])
         (some (SeppoExpr.block [SeppoExpr.assignment "y" (SeppoExpr.number 6)])),
       SeppoExpr.ret (SeppoExpr.number 0)])]

/-- `y` is first bound inside the true branch, which then returns. -/
def p7c : SeppoExpr :=
  SeppoExpr.block [SeppoExpr.function "seppo" []
    (SeppoExpr.block
      [SeppoExpr.conditional (SeppoExpr.number 1)
         (SeppoExpr.block [SeppoExpr.assignment "y" (SeppoExpr.number 5),
                           SeppoExpr.ret (SeppoExpr.number 1)])
         (some (SeppoExpr.block [SeppoExpr.number 0])),
       SeppoExpr.ret (SeppoExpr.number 0)])]

/-- `y` is first bound inside a branch, then referenced after the
Conditional. -/
def p10 : SeppoExpr :=
  SeppoExpr.block [SeppoExpr.function "seppo" []
    (SeppoExpr.block
      [SeppoExpr.assignment "x" (SeppoExpr.number 1),
       SeppoExpr.conditional (SeppoExpr.number 1)
         (SeppoExpr.block [SeppoExpr.assignment "y" (SeppoExpr.number 5)]) none,
       SeppoExpr.ret (SeppoExpr.var "y")])]

/-- `sInFn` with `x` already bound to slot 0 in the enclosing scope. -/
def sInFnX : CG :=
  { sInFn with
    vars := [("x", 0)], nextSlot := 1,
    mod := { funcs := sInFn.mod.funcs,
             blocks := [{ fn := 1, name := "entry",
                          insts := [Inst.alloca 0 "x", Inst.store 0 (Val.const 1)],
                          term := none }] } }

/-- A Conditional whose true branch binds the fresh name `y`. -/
def condBindY : SeppoExpr :=
  SeppoExpr.conditional (SeppoExpr.number 1)
    (SeppoExpr.block [SeppoExpr.assignment "y" (SeppoExpr.number 5)]) none

/-- A directly self-recursive function definition. -/
def selfRec : SeppoExpr :=
  SeppoExpr.function "seppo" []
    (SeppoExpr.block [SeppoExpr.ret (SeppoExpr.functionCall "seppo" [])])

/-! ## Supporting lemmas -/

theorem registerOne_funcs (s : CG) (d : String × Nat) :
    (registerOne s d).mod.funcs = s.mod.funcs ++ [ffiSig d] := rfl

theorem registerForeign_funcs (decls : List (String × Nat)) (s : CG) :
    (registerForeign s decls).mod.funcs = s.mod.funcs ++ decls.map ffiSig := by
  induction decls generalizing s with
  | nil => simp [registerForeign]
  | cons d rest ih =>
    have h1 : registerForeign s (d :: rest) = registerForeign (registerOne s d) rest := rfl
    rw [h1, ih, registerOne_funcs]
    simp

theorem genExpr_inlineC_funcs (k : Nat) (s : CG) (code : String) :
    ((genExpr true (k + 1) (SeppoExpr.inlineC code) s).1).mod.funcs =
      s.mod.funcs ++ (extractCFunctions code).map ffiSig := by
  show ((genExpr true (k + 1) (SeppoExpr.inlineC code) s).1).mod.funcs = _
  simp [genExpr, genAny, registerForeign_funcs]

/-! ## The claims -/

/-- Claim C1.  The claim states that on success the external linker is
invoked with the primary object file together with every foreign object
file, so a program calling a foreign function links end to end.  The code
contradicts this: `link_object_file` receives only the primary object file —
`CodeGen::c_object_files` is never passed to it by the driver — so on the
Scenario D program the link command contains `prog.o` but not the foreign
object `/tmp/seppolang_extern_0/inline.o`, even though codegen collected it
"for later linking". -/
theorem C1_linker_invocation_omits_foreign_objects :
    (∀ objFile out : String, linkObjectFileArgs objFile out = ["cc", "-v", "-o", out, objFile]) ∧
    (compileFile itemsD true true "prog").result = Except.ok () ∧
    (compileFile itemsD true true "prog").foreignObjs = ["/tmp/seppolang_extern_0/inline.o"] ∧
    (compileFile itemsD true true "prog").linkCmd =
      some (linkObjectFileArgs "prog.o" "prog") ∧
    "/tmp/seppolang_extern_0/inline.o" ∉
      ((compileFile itemsD true true "prog").linkCmd.getD []) :=
  ⟨fun _ _ => rfl, by decide, by decide, by decide, by decide⟩

/-- Claim C2, counterexample.  The claim states every temporary file and
directory is removed before returning on both success and failure paths.
On the successful Scenario D run the scratch directory and the foreign
object file are created but never removed. -/
theorem C2_cleanup_counterexample :
    (compileFile itemsD true true "prog").result = Except.ok () ∧
    "/tmp/seppolang_extern_0" ∈ (compileFile itemsD true true "prog").created ∧
    "/tmp/seppolang_extern_0" ∉ (compileFile itemsD true true "prog").removed ∧
    "/tmp/seppolang_extern_0/inline.o" ∈ (compileFile itemsD true true "prog").created ∧
    "/tmp/seppolang_extern_0/inline.o" ∉ (compileFile itemsD true true "prog").removed := by
  decide

/-- Claim C2, amended.  On the Scenario D program, for every combination of
subprocess outcomes, the only removals are the scratch C source file (after a
successful foreign compile) and the primary object file (after a successful
link); the scratch directory and the foreign object file are never removed,
and on failure paths (foreign-compile failure, link failure) everything
created so far is left behind. -/
theorem C2_cleanup_amended :
    ∀ cc linkOk : Bool,
      (compileFile itemsD cc linkOk "prog").removed =
        (if cc then ["/tmp/seppolang_extern_0/inline.c"] else []) ++
        (if cc && linkOk then ["prog.o"] else []) ∧
      (compileFile itemsD cc linkOk "prog").created =
        (if cc then
           ["/tmp/seppolang_extern_0", "/tmp/seppolang_extern_0/inline.c",
            "/tmp/seppolang_extern_0/inline.o", "prog.ll", "prog.o"] ++
           (if linkOk then ["prog"] else [])
         else ["/tmp/seppolang_extern_0", "/tmp/seppolang_extern_0/inline.c"]) ∧
      "/tmp/seppolang_extern_0" ∉ (compileFile itemsD cc linkOk "prog").removed ∧
      "/tmp/seppolang_extern_0/inline.o" ∉ (compileFile itemsD cc linkOk "prog").removed := by
  decide

/-- Claim C3.  Every program without a function named `seppo` (the designated
entry point) fails with `MissingEntryPoint` ("No seppo function found") and
produces nothing — no linker invocation, no created file; a program
containing the entry function passes the check. -/
theorem C3_missing_entry_point :
    (∀ items : List TopItem, (∀ it ∈ items, it.isSeppoFn = false) →
       ∀ (cc linkOk : Bool) (out : String),
         compileFile items cc linkOk out =
           { result := Except.error CErr.missingEntryPoint, linkCmd := none,
             foreignObjs := [], created := [], removed := [] }) ∧
    parseSeppo itemsD = Except.ok (SeppoExpr.block (itemsD.map TopItem.toExpr)) := by
  constructor
  · intro items h cc linkOk out
    have hany : items.any TopItem.isSeppoFn = false := by
      rw [List.any_eq_false]
      intro x hx
      simpa using h x hx
    have hp : parseSeppo items = Except.error CErr.missingEntryPoint := by
      simp [parseSeppo, hany]
    simp [compileFile, hp]
  · rfl

/-- Witness for C3: the concrete program `itemsNoSeppo` lacks `seppo` and
compilation fails with `MissingEntryPoint`, producing nothing. -/
theorem C3_missing_entry_point_witness :
    compileFile itemsNoSeppo true true "prog" =
      { result := Except.error CErr.missingEntryPoint, linkCmd := none,
        foreignObjs := [], created := [], removed := [] } :=
  C3_missing_entry_point.1 itemsNoSeppo (by decide) true true "prog"

/-- Claim C4.  In `prog4`, `x` is bound before the Conditional and assigned
inside exactly one branch (the true branch, which stores `v` into `x`'s
existing slot); reading `x` after the Conditional yields the branch's
assigned value when the branch was taken (`b = true`) and the pre-conditional
value when the other branch was taken — for all i64 values of `x` and `v`. -/
theorem C4_branch_assignment_semantics (x0 v1 : Int) (b : Bool) :
    (CG.compile true (prog4 b)).2 = Except.ok () ∧
    runCall ((CG.compile true (prog4 b)).1.mod) 64 "seppo" [x0, v1] =
      some ((if b then v1 else x0), []) := by
  cases b
  · have h : (CG.compile true (prog4 false)).1.mod = mod4ir 0 := by decide
    refine ⟨by decide, ?_⟩
    rw [h]
    exact rfl
  · have h : (CG.compile true (prog4 true)).1.mod = mod4ir 1 := by decide
    refine ⟨by decide, ?_⟩
    rw [h]
    exact rfl

/-- Claim C5.  A `FunctionCall` whose name is absent from the function symbol
table fails with `UndefinedFunction` before compiling any argument (the state
is returned unchanged); and a function is registered before its body is
compiled, so the directly self-recursive `selfRec` compiles successfully,
its entry block containing the recursive call. -/
theorem C5_function_symbol_table :
    (∀ (k : Nat) (cc : Bool) (s : CG) (name : String) (args : List SeppoExpr),
       alook s.functions name = none →
       genExpr cc (k + 1) (SeppoExpr.functionCall name args) s =
         (s, Except.error (CErr.undefinedFunction name))) ∧
    (genExpr true bigFuel selfRec initCG).2 = Except.ok (Val.const 0) ∧
    (genExpr true bigFuel selfRec initCG).1.mod.blocks =
      [{ fn := 1, name := "entry", insts := [Inst.call 0 "seppo" []],
         term := some (Term.ret (Val.reg 0)) }] := by
  refine ⟨?_, by decide, by decide⟩
  intro k cc s name args h
  simp [genExpr, genAny, h]

/-- Witness for C5: calling the undeclared function `nope` from the initial
state fails with `UndefinedFunction "nope"`. -/
theorem C5_function_symbol_table_witness :
    genExpr true 1 (SeppoExpr.functionCall "nope" []) initCG =
      (initCG, Except.error (CErr.undefinedFunction "nope")) :=
  C5_function_symbol_table.1 0 true initCG "nope" [] rfl

/-- Claim C6.  The value of a compiled Conditional is the `merge_val` phi in
the merge block: in `p6a` (both branches fall through) it has the edges
(then-result, then-block) and (else-result, else-block); in `p6b` the true
branch ends in `return` and contributes no edge; in `p6c` the false branch is
absent and its edge carries the constant zero; and for `condBothRet` (both
branches return) `gen_expr` yields the constant zero while the `merge_val`
phi is left with no incoming edges in the dead merge block. -/
theorem C6_conditional_value_phi :
    (CG.compile true p6a).1.mod.blocks.get? 3 = some
      { fn := 1, name := "merge",
        insts := [Inst.phi 1 "merge_val" [(Val.const 2, 1), (Val.const 3, 2)],
                  Inst.load 2 0 "x"],
        term := some (Term.ret (Val.reg 2)) } ∧
    ((CG.compile true p6b).1.mod.blocks.get? 1).bind (fun blk => blk.term) =
      some (Term.ret (Val.const 7)) ∧
    (CG.compile true p6b).1.mod.blocks.get? 3 = some
      { fn := 1, name := "merge",
        insts := [Inst.phi 1 "merge_val" [(Val.const 5, 2)]],
        term := some (Term.ret (Val.const 9)) } ∧
    (CG.compile true p6c).1.mod.blocks.get? 3 = some
      { fn := 1, name := "merge",
        insts := [Inst.phi 1 "merge_val" [(Val.const 4, 1), (Val.const 0, 2)]],
        term := some (Term.ret (Val.const 9)) } ∧
    (genExpr true bigFuel condBothRet sInFn).2 = Except.ok (Val.const 0) ∧
    (genExpr true bigFuel condBothRet sInFn).1.mod.blocks.get? 3 = some
      { fn := 1, name := "merge", insts := [Inst.phi 1 "merge_val" []],
        term := none } := by
  decide

/-- Claim C7, counterexample.  In `p7` the name `y`'s slot binding after the
true branch differs from the pre-conditional snapshot (it is first bound
there), and both branches reach the merge block (both end in `br` to block
3) — yet the `y_phi` node receives exactly one incoming edge, not one per
reaching branch, and the merge block contains no store at all, so the phi
result is not stored back into any slot. -/
theorem C7_merge_phi_counterexample :
    ((CG.compile true p7).1.mod.blocks.get? 1).bind (fun blk => blk.term) =
      some (Term.br 3) ∧
    ((CG.compile true p7).1.mod.blocks.get? 2).bind (fun blk => blk.term) =
      some (Term.br 3) ∧
    (CG.compile true p7).1.mod.blocks.get? 3 = some
      { fn := 1, name := "merge",
        insts := [Inst.phi 1 "y_phi" [(Val.reg 2, 1)], Inst.load 2 0 "y_then",
                  Inst.phi 3 "merge_val" [(Val.const 5, 1), (Val.const 0, 2)]],
        term := some (Term.ret (Val.const 0)) } ∧
    ((CG.compile true p7).1.mod.blocks.get? 3).map
      (fun blk => blk.insts.any isStore) = some false := by
  decide

/-- Claim C7, amended.  For every name whose slot binding differs from the
pre-conditional snapshot a phi is created with one incoming edge per branch
that has the name bound and does not end in `return` (`p7`: one edge from
the binding branch although both branches reach merge; `p7b`: two edges;
`p7c`: no edge, the binding branch returns); a differing binding only arises
for names first bound inside a branch (in `p6a`, assignment to the
pre-existing `x` reuses its slot and creates no variable phi), so no store
back into a pre-conditional slot ever occurs and the merged value is not
observable after the Conditional. -/
theorem C7_merge_phi_amended :
    ((CG.compile true p7).1.mod.blocks.get? 3).map
      (fun blk => blk.insts.filter isPhi) =
      some [Inst.phi 1 "y_phi" [(Val.reg 2, 1)],
            Inst.phi 3 "merge_val" [(Val.const 5, 1), (Val.const 0, 2)]] ∧
    ((CG.compile true p7b).1.mod.blocks.get? 3).map
      (fun blk => blk.insts.filter isPhi) =
      some [Inst.phi 1 "y_phi" [(Val.reg 2, 1), (Val.reg 3, 2)],
            Inst.phi 4 "merge_val" [(Val.const 5, 1), (Val.const 6, 2)]] ∧
    ((CG.compile true p7c).1.mod.blocks.get? 3).map
      (fun blk => blk.insts.filter isPhi) =
      some [Inst.phi 1 "y_phi" [],
            Inst.phi 2 "merge_val" [(Val.const 0, 2)]] ∧
    ((CG.compile true p6a).1.mod.blocks.get? 3).map
      (fun blk => blk.insts.filter isPhi) =
      some [Inst.phi 1 "merge_val" [(Val.const 2, 1), (Val.const 3, 2)]] ∧
    ((CG.compile true p7).1.mod.blocks.get? 3).map
      (fun blk => blk.insts.any isStore) = some false ∧
    ((CG.compile true p7b).1.mod.blocks.get? 3).map
      (fun blk => blk.insts.any isStore) = some false ∧
    ((CG.compile true p7c).1.mod.blocks.get? 3).map
      (fun blk => blk.insts.any isStore) = some false := by
  decide

/-- Claim C8.  Every (name, arity) pair the lexical scan discovers in a
foreign block is registered as a callable with exactly `arity` i64 parameters
and an i64 return, externally linked, regardless of the declared foreign
types; and the scan computes arity as comma count plus one (zero for an
empty group), as the concrete snippets show: `add(long a, long b)` ↦ 2,
`f()` ↦ 0, `calc(float x, int y)` ↦ 2 and `g(a,b,c)` ↦ 3. -/
theorem C8_ffi_arity_registration :
    (∀ (k : Nat) (s : CG) (code nm : String) (n : Nat),
       (nm, n) ∈ extractCFunctions code →
       ∃ f ∈ ((genExpr true (k + 1) (SeppoExpr.inlineC code) s).1).mod.funcs,
         f.name = nm ∧ f.params = List.replicate n Ty.i64 ∧ f.retTy = Ty.i64 ∧
         f.external = true) ∧
    extractCFunctions addC = [("add", 2)] ∧
    extractCFunctions snippet0 = [("f", 0)] ∧
    extractCFunctions snippet23 = [("calc", 2), ("g", 3)] := by
  refine ⟨?_, by decide, by decide, by decide⟩
  intro k s code nm n h
  refine ⟨ffiSig (nm, n), ?_, rfl, rfl, rfl, rfl⟩
  rw [genExpr_inlineC_funcs]
  exact List.mem_append_right _ (List.mem_map_of_mem _ h)

/-- Witness for C8: in Scenario D's foreign block the scan discovers
`("add", 2)`, and after the `InlineC` arm runs the module holds an external
`add` with two i64 parameters and i64 return. -/
theorem C8_ffi_arity_registration_witness :
    ∃ f ∈ ((genExpr true 1 (SeppoExpr.inlineC addC) initCG).1).mod.funcs,
      f.name = "add" ∧ f.params = List.replicate 2 Ty.i64 ∧ f.retTy = Ty.i64 ∧
      f.external = true :=
  C8_ffi_arity_registration.1 0 initCG addC "add" 2 (by decide)

/-- Claim C9.  Compiling a `Return` while no function is being compiled
(`current_function` unset) fails with "Return statement outside of function"
and emits nothing: the state comes back unchanged, so in particular no
return terminator was emitted. -/
theorem C9_return_outside_function (k : Nat) (cc : Bool) (n : Int) (s : CG)
    (h : s.currentFunction = none) :
    genExpr cc (k + 2) (SeppoExpr.ret (SeppoExpr.number n)) s =
      (s, Except.error CErr.returnOutsideFunction) := by
  simp [genExpr, genAny, bindVal, h]

/-- Witness for C9: a top-level `return 5` from the initial state (no
current function) fails with the return-outside-function error. -/
theorem C9_return_outside_function_witness :
    genExpr true 2 (SeppoExpr.ret (SeppoExpr.number 5)) initCG =
      (initCG, Except.error CErr.returnOutsideFunction) :=
  C9_return_outside_function 0 true 5 initCG rfl

/-- Claim C10.  A variable first bound inside a Conditional branch is out of
scope afterwards: compiling `condBindY` from a state whose scope is
`[("x", 0)]` succeeds and leaves the scope exactly `[("x", 0)]` again (the
pre-conditional names with their original slots), and the program `p10`,
which references the branch-local `y` after the Conditional, fails with
`UndefinedVariable "y"`. -/
theorem C10_branch_local_scope :
    (genExpr true bigFuel condBindY sInFnX).1.vars = [("x", 0)] ∧
    sInFnX.vars = [("x", 0)] ∧
    (CG.compile true p10).2 = Except.error (CErr.undefinedVariable "y") := by
  decide

end Seppolang
